import Mathlib

/-!
Verification of the `xlivewall` launcher (`xlivewall.py`).

The development shallowly embeds the program: Python strings are `List Char`,
the filesystem, the monotonic clock, the socket, the X event stream and the
player process are explicit oracles packaged in environment structures, and
`main` is a pure function from those oracles to an observable `Outcome`
(exit code, control messages sent, spawn/teardown bookkeeping).

Modelling conventions:
* time is measured in integer milliseconds (`Int`); the claims about timeouts
  are purely order-theoretic, so nothing is lost by leaving floats behind;
* `random.choice` is modelled by an arbitrary index supplied by the
  environment, reduced modulo the length of the candidate list;
* exceptions are modelled explicitly where a claim depends on them
  (`send_ipc`, the volume loop's `try/finally`).
-/

deriving instance DecidableEq for Except

/-- Python strings are modelled as lists of characters. -/
abbrev Str := List Char

/-- Embeds `arg.replace('WID', wid)` (line 78): every non-overlapping
occurrence of the literal `WID`, scanned left to right, is replaced. -/
def replaceWID (wid : Str) : Str → Str
  | 'W' :: 'I' :: 'D' :: rest => wid ++ replaceWID wid rest
  | c :: rest => c :: replaceWID wid rest
  | [] => []

/-- Embeds `arg.split('=', 1)[1]` (line 139) for an argument containing
`=`: everything after the first `=`. -/
def afterEq : Str → Str
  | [] => []
  | c :: rest => if c = '=' then rest else afterEq rest

/-- The flag key of an argument: the part before the first `=`
(`--hwdec=no` has key `--hwdec`; a valueless flag is its own key). -/
def flagKey (a : Str) : Str := a.takeWhile (fun c => c != '=')

/-- Embeds `pathlib.Path.suffix` on an entry name: the substring from the
last dot, provided that dot is neither the first nor the last character
(`.hidden` and `name.` have empty suffix). -/
def pySuffix (name : Str) : Str :=
  let tail := name.reverse.takeWhile (fun c => c != '.')
  let i := name.length - 1 - tail.length
  if 0 < i ∧ i + 1 < name.length then '.' :: tail.reverse else []

/-- Embeds `VIDEO_EXTENSIONS` (line 25). -/
def VIDEO_EXTENSIONS : List Str :=
  [".mp4".toList, ".mkv".toList, ".webm".toList, ".avi".toList,
   ".mov".toList, ".flv".toList]

/-- Embeds `IPC_PATH` (line 27), as the string passed to the mpv flags. -/
def IPC_PATH : Str := "/tmp/mpv-background.sock".toList

/-- One JSON IPC command written to the control socket, as built at
lines 133, 135, 140 and 174 of the source. -/
inductive IpcCmd where
  | vf_clear
  | loadfile (path : Str)
  | vf_set (spec : Str)
  | set_property_volume (v : Int)
deriving DecidableEq

/-- Recognizer for `loadfile` messages. -/
def is_loadfile : IpcCmd → Bool
  | .loadfile _ => true
  | _ => false

/-- Recognizer for `vf set` messages. -/
def is_vf_set : IpcCmd → Bool
  | .vf_set _ => true
  | _ => false

/-- The Python exceptions relevant to `send_ipc`: the `except` clause at
line 39 names `(OSError, TypeError)`. -/
inductive PyExc where
  | osError
  | typeError
  | valueError
  | otherExc
deriving DecidableEq

/-- The `except (OSError, TypeError)` clause of `send_ipc` (line 39). -/
def py_caught : PyExc → Bool
  | .osError => true
  | .typeError => true
  | _ => false

/-- Embeds `send_ipc` (lines 33-40).  `raised` is the exception raised, if
any, by the body (`socket`, `connect`, `sendall`); the socket calls raise
only `OSError` subclasses and `json.dumps` of the literal command
dictionaries cannot fail.  A caught exception is logged and swallowed
(`.ok`); anything outside the `except` clause would propagate. -/
def send_ipc (raised : Option PyExc) : Except PyExc Unit :=
  match raised with
  | none => .ok ()
  | some e => if py_caught e then .ok () else .error e

/-- One directory entry as seen by `Path.iterdir`. -/
structure Entry where
  name : Str
  is_file : Bool
deriving DecidableEq

/-- The filesystem oracle: `Path.is_dir` and `Path.iterdir`. -/
structure Fs where
  is_dir : Str → Bool
  iterdir : Str → List Entry

/-- The selector errors (`sys.exit(1)` at lines 65 and 74, with the two
log messages distinguishing them). -/
inductive SelErr where
  | NoMediaFound
  | NoMediaSpecified
deriving DecidableEq

/-- Embeds the fallthrough loop of `pick_video` (lines 70-74): the first
argument that does not start with `-`, the full argument list untouched. -/
def firstNonFlag (cmd_args : List Str) : Except SelErr (Str × List Str) :=
  match cmd_args.find? (fun a => !(['-'].isPrefixOf a)) with
  | some a => .ok (a, cmd_args)
  | none => .error .NoMediaSpecified

/-- Embeds the list comprehension at lines 61-62: the `str(f)` of every
regular file in the directory whose lower-cased suffix is in the
allow-list; `str(f)` is the directory path joined with the entry name. -/
def matching_vids (fs : Fs) (dir : Str) : List Str :=
  (fs.iterdir dir).filterMap fun e =>
    if e.is_file = true ∧ (pySuffix e.name).map Char.toLower ∈ VIDEO_EXTENSIONS
    then some (dir ++ '/' :: e.name) else none

/-- Embeds `pick_video` (lines 55-74).  `k` models `random.choice`.  The
in-place mutation `cmd_args[1] = choice` is returned as the second
component of the result. -/
def pick_video (fs : Fs) (k : Nat) (cmd_args : List Str) :
    Except SelErr (Str × List Str) :=
  match cmd_args with
  | a0 :: a1 :: rest =>
    if fs.is_dir a1 then
      let vids := matching_vids fs a1
      if vids.isEmpty then .error .NoMediaFound
      else
        let choice := vids.getD (k % vids.length) []
        .ok (choice, a0 :: choice :: rest)
    else firstNonFlag (a0 :: a1 :: rest)
  | _ => firstNonFlag cmd_args

/-- Builds `k` or `k=v` as in the f-string at line 92. -/
def mkArg (k : Str) (v : Option Str) : Str :=
  match v with
  | none => k
  | some s => k ++ '=' :: s

/-- Embeds the `defaults` dict of `build_cmd` (lines 79-89), in insertion
order. -/
def mpv_defaults (wid ipc : Str) : List (Str × Option Str) :=
  [("--wid".toList, some wid),
   ("--loop".toList, none),
   ("--no-osc".toList, none),
   ("--hwdec".toList, some "auto".toList),
   ("--cache".toList, some "yes".toList),
   ("--cache-secs".toList, some "60".toList),
   ("--volume".toList, some "0".toList),
   ("--input-ipc-server".toList, some ipc),
   ("--no-input-default-bindings".toList, none)]

/-- One step of the loop at lines 90-92: append the default unless some
existing argument starts with the flag key (a prefix test). -/
def add_default (b : List Str) (kv : Str × Option Str) : List Str :=
  if b.any (fun a => kv.1.isPrefixOf a) then b else b ++ [mkArg kv.1 kv.2]

/-- Embeds `build_cmd` (lines 76-93). -/
def build_cmd (args : List Str) (wid ipc : Str) : List Str :=
  let base := args.map (replaceWID wid)
  (mpv_defaults wid ipc).foldl add_default base

/-- The `--vf=` literal of line 138. -/
def VF_PREFIX : Str := "--vf=".toList

/-- The `vf set` messages produced by the loop at lines 137-140, in
argument order. -/
def join_sets (cmd2 : List Str) : List IpcCmd :=
  (cmd2.filter (fun a => VF_PREFIX.isPrefixOf a)).map
    (fun a => .vf_set (afterEq a))

/-- All control messages of the join branch (lines 131-140), in send
order: `vf clear`, then `loadfile <video> replace`, then the `vf set`s. -/
def join_msgs (video : Str) (cmd2 : List Str) : List IpcCmd :=
  .vf_clear :: .loadfile video :: join_sets cmd2

/-- The environment of one `wait_socket` call (lines 42-53): the
`time.monotonic()` reading taken for the deadline, the reading taken at
the `i`-th loop test, and whether the `i`-th `connect` succeeds.  Times
are integer milliseconds. -/
structure WaitEnv where
  t0 : Int
  clock : Nat → Int
  conn : Nat → Bool

/-- The polling loop of `wait_socket`, fuelled; returns the result and the
number of connection attempts made, or `none` if the fuel runs out. -/
def wait_socket_go (w : WaitEnv) (deadline : Int) :
    Nat → Nat → Option (Bool × Nat)
  | 0, _ => none
  | fuel + 1, i =>
    if w.clock i < deadline then
      if w.conn i then some (true, i + 1)
      else wait_socket_go w deadline fuel (i + 1)
    else some (false, i)

/-- Embeds `wait_socket` (lines 42-53): `deadline = time.monotonic() +
timeout`, then poll until a connect succeeds or the deadline passes. -/
def wait_socket (w : WaitEnv) (timeout : Int) (fuel : Nat) :
    Option (Bool × Nat) :=
  wait_socket_go w (w.t0 + timeout) fuel 0

/-- The probe timeout of line 130 (`timeout=0.1`), in milliseconds. -/
def PROBE_TIMEOUT : Int := 100

/-- One event from `d.next_event()` as the loop at lines 162-174 sees it:
an Up keypress, a Down keypress, or anything else (a non-KeyPress event or
any other key), which the loop skips. -/
inductive Ev where
  | keyUp
  | keyDown
  | ignored
deriving DecidableEq

/-- One iteration's volume update (lines 167-172): `some` of the new
volume when the event is recognized, `none` when it is skipped. -/
def vol_step (v : Int) : Ev → Option Int
  | .keyUp => some (min 100 (v + 5))
  | .keyDown => some (max 0 (v - 5))
  | .ignored => none

/-- The volume event loop (lines 160-174) over a finite event sequence:
final volume and the `set_property volume` messages sent, in order.  Every
recognized event sends the updated volume (line 174). -/
def vol_loop (v : Int) : List Ev → Int × List IpcCmd
  | [] => (v, [])
  | e :: rest =>
    match vol_step v e with
    | none => vol_loop v rest
    | some v2 =>
      let r := vol_loop v2 rest
      (r.1, .set_property_volume v2 :: r.2)

/-- How the volume event loop ends: the player exits (`proc.poll()` turns
non-`None`), a termination signal (the handlers of lines 144-145 raise
`SystemExit(0)` inside the loop after `n` events), or some other exception
after `n` events. -/
inductive LoopExit where
  | playerExited
  | signalExit (n : Nat)
  | excAt (n : Nat)

/-- The events actually processed before the loop ends. -/
def processed_events (events : List Ev) : LoopExit → List Ev
  | .playerExited => events
  | .signalExit n => events.take n
  | .excAt n => events.take n

/-- The process exit code produced by each loop ending: falling off `main`
and `SystemExit(0)` give 0; an uncaught exception makes the interpreter
exit 1. -/
def loop_exit_code : LoopExit → Nat
  | .excAt _ => 1
  | _ => 0

/-- The full launch environment: filesystem, random choice, the two
`wait_socket` call environments with their fuel, the window id string
(`f'0x{win.id:x}'`, line 149), the X event stream, how the volume loop
ends, and which sends fail (`sendFail i` is true when the `i`-th
`send_ipc` of the launch hits a caught exception). -/
structure Env where
  fs : Fs
  pick : Nat
  probe : WaitEnv
  probeFuel : Nat
  ready : WaitEnv
  readyFuel : Nat
  wid : Str
  events : List Ev
  loopExit : LoopExit
  sendFail : Nat → Bool

/-- Everything a launch observably does. -/
structure Outcome where
  exitCode : Nat
  sent : List IpcCmd
  spawned : Option (List Str)
  terminated : Bool
  displayClosed : Bool
  probeAttempts : Nat
  readyAttempts : Nat
  dropped : List Bool
deriving DecidableEq

/-- Embeds the control flow of `main` (lines 115-178), leaving the
`dropped` record empty.  In order: the empty-invocation check (line 124,
`p.error` exits with argparse's status 2), `pick_video`, the 100 ms
liveness probe, then either the join branch (lines 131-141) or the become
branch: spawn `build_cmd`'s invocation, run the readiness wait (line 156,
on failure terminate the player and exit 1), then the volume loop with its
`try/finally` teardown (`proc.terminate()` and `d.close()`, lines
175-178), which runs on the player-exit, signal and exception paths
alike.  `none` means a `wait_socket` ran out of fuel. -/
def main_steps (socket_timeout : Int) (cmd : List Str) (env : Env) :
    Option Outcome :=
  if cmd.isEmpty then
    some ⟨2, [], none, false, false, 0, 0, []⟩
  else
    match pick_video env.fs env.pick cmd with
    | .error _ => some ⟨1, [], none, false, false, 0, 0, []⟩
    | .ok (video, cmd2) =>
      match wait_socket env.probe PROBE_TIMEOUT env.probeFuel with
      | none => none
      | some (true, pa) =>
        some ⟨0, join_msgs video cmd2, none, false, false, pa, 0, []⟩
      | some (false, pa) =>
        let mpv_cmd := build_cmd cmd2 env.wid IPC_PATH
        match wait_socket env.ready socket_timeout env.readyFuel with
        | none => none
        | some (false, ra) =>
          some ⟨1, [], some mpv_cmd, true, false, pa, ra, []⟩
        | some (true, ra) =>
          let msgs := (vol_loop 0 (processed_events env.events env.loopExit)).2
          some ⟨loop_exit_code env.loopExit, msgs, some mpv_cmd,
                true, true, pa, ra, []⟩

/-- A launch: `main_steps` plus the record of which sends were dropped.
Every send goes through `send_ipc`, which swallows its failures, so the
drop record influences nothing else. -/
def main_run (socket_timeout : Int) (cmd : List Str) (env : Env) :
    Option Outcome :=
  (main_steps socket_timeout cmd env).map fun o =>
    { o with dropped := (List.range o.sent.length).map env.sendFail }

/-- An outcome with the drop record erased. -/
def strip_dropped (o : Outcome) : Outcome := { o with dropped := [] }

/-! ## General lemmas about the embedded string and list operations -/

/-- A `getD` lookup at an in-range index is a member of the list. -/
theorem getD_mem_of_lt {α : Type} : ∀ (l : List α) (n : Nat) (d : α),
    n < l.length → l.getD n d ∈ l := by
  intro l
  induction l with
  | nil => intro n d h; simp at h
  | cons a l ih =>
    intro n d h
    cases n with
    | zero => simp [List.getD]
    | succ m =>
      simp only [List.getD_cons_succ]
      exact List.mem_cons_of_mem a (ih m d (by simpa using h))

/-- Prefix tests ignore everything from the first occurrence of a
character that the pattern does not contain. -/
theorem isPrefixOf_append_cons (p : Str) (c : Char) (hc : c ∉ p) :
    ∀ (d n : Str), p.isPrefixOf (d ++ c :: n) = p.isPrefixOf d := by
  induction p with
  | nil => intro d n; simp [List.isPrefixOf]
  | cons a p ih =>
    simp only [List.mem_cons, not_or] at hc
    intro d n
    cases d with
    | nil =>
      have hac : (a == c) = false := by
        simp only [beq_eq_false_iff_ne]
        exact fun h => hc.1 h.symm
      simp [List.isPrefixOf, hac]
    | cons b d =>
      simp only [List.cons_append, List.isPrefixOf, List.append_eq]
      rw [ih hc.2 d n]

/-- The flag key of an argument is a prefix of the argument. -/
theorem flagKey_isPrefixOf (a : Str) : (flagKey a).isPrefixOf a = true := by
  rw [List.isPrefixOf_iff_prefix]
  exact List.takeWhile_prefix _

/-- A string without `=` is its own flag key. -/
theorem flagKey_of_no_eq (k : Str) : ('=' : Char) ∉ k → flagKey k = k := by
  induction k with
  | nil => intro _; rfl
  | cons c k ih =>
    intro hk
    simp only [List.mem_cons, not_or] at hk
    have hc : (c != '=') = true := by
      simp only [bne_iff_ne, ne_eq]
      exact fun h => hk.1 h.symm
    simp only [flagKey, List.takeWhile_cons, hc, if_true]
    simp only [flagKey] at ih
    rw [ih hk.2]

/-- The flag key of `k=v` is `k` when `k` itself contains no `=`. -/
theorem flagKey_append_eq (k s : Str) : ('=' : Char) ∉ k →
    flagKey (k ++ '=' :: s) = k := by
  induction k with
  | nil => intro _; simp [flagKey, List.takeWhile_cons]
  | cons c k ih =>
    intro hk
    simp only [List.mem_cons, not_or] at hk
    have hc : (c != '=') = true := by
      simp only [bne_iff_ne, ne_eq]
      exact fun h => hk.1 h.symm
    simp only [List.cons_append, flagKey, List.takeWhile_cons, hc, if_true]
    simp only [flagKey] at ih
    rw [ih hk.2]

/-- The flag key of a built default argument is its table key. -/
theorem flagKey_mkArg (k : Str) (v : Option Str) (hk : ('=' : Char) ∉ k) :
    flagKey (mkArg k v) = k := by
  cases v with
  | none => exact flagKey_of_no_eq k hk
  | some s => exact flagKey_append_eq k s hk

/-! ## Lemmas about the video selector -/

/-- A successful fallthrough returns the argument list unchanged. -/
theorem firstNonFlag_ok (l : List Str) (v : Str) (c2 : List Str)
    (h : firstNonFlag l = .ok (v, c2)) : c2 = l := by
  simp only [firstNonFlag] at h
  split at h
  · simp only [Except.ok.injEq, Prod.mk.injEq] at h
    exact h.2.symm
  · cases h

/-- Every selected candidate is the directory path joined to an entry
name. -/
theorem matching_vids_mem (fs : Fs) (dir x : Str)
    (h : x ∈ matching_vids fs dir) :
    ∃ e ∈ fs.iterdir dir, x = dir ++ '/' :: e.name := by
  simp only [matching_vids, List.mem_filterMap] at h
  obtain ⟨e, he, hx⟩ := h
  refine ⟨e, he, ?_⟩
  split at hx
  · cases hx; rfl
  · cases hx

/-- Dissection of a successful `pick_video`: either the fallthrough path
left the arguments unchanged, or the directory path replaced the second
argument by a path joined from the directory and an entry name. -/
theorem pick_video_ok (fs : Fs) (k : Nat) (cmd : List Str) (v : Str)
    (c2 : List Str) (h : pick_video fs k cmd = .ok (v, c2)) :
    c2 = cmd ∨ ∃ a0 a1 rest, cmd = a0 :: a1 :: rest ∧ c2 = a0 :: v :: rest ∧
      ∃ e ∈ fs.iterdir a1, v = a1 ++ '/' :: e.name := by
  match cmd with
  | [] => simp [pick_video, firstNonFlag] at h
  | [a0] => exact Or.inl (firstNonFlag_ok _ _ _ h)
  | a0 :: a1 :: rest =>
    simp only [pick_video] at h
    split at h
    · split at h
      · cases h
      · simp only [Except.ok.injEq, Prod.mk.injEq] at h
        obtain ⟨hv, hc2⟩ := h
        subst hv
        right
        have hne : matching_vids fs a1 ≠ [] := by
          intro hnil
          simp [hnil, List.isEmpty] at *
        have hlen : 0 < (matching_vids fs a1).length :=
          List.length_pos.mpr hne
        have hmem : (matching_vids fs a1).getD
            (k % (matching_vids fs a1).length) [] ∈ matching_vids fs a1 :=
          getD_mem_of_lt _ _ _ (Nat.mod_lt _ hlen)
        obtain ⟨e, he, hx⟩ := matching_vids_mem fs a1 _ hmem
        exact ⟨a0, a1, rest, rfl, hc2.symm, e, he, hx⟩
    · exact Or.inl (firstNonFlag_ok _ _ _ h)

/-- A successful selection implies a nonempty argument list. -/
theorem pick_video_ok_not_empty (fs : Fs) (k : Nat) (cmd : List Str)
    (v : Str) (c2 : List Str) (h : pick_video fs k cmd = .ok (v, c2)) :
    cmd.isEmpty = false := by
  cases cmd with
  | nil => simp [pick_video, firstNonFlag] at h
  | cons a t => rfl

/-- Selection preserves, per element, whether an argument starts with
`--vf=`: the replacement path starts with `--vf=` exactly when the
replaced directory path does, because `--vf=` contains no slash and the
replacement is the directory path extended by `/` and an entry name. -/
theorem pick_video_countP_vf (fs : Fs) (k : Nat) (cmd : List Str)
    (v : Str) (c2 : List Str) (h : pick_video fs k cmd = .ok (v, c2)) :
    c2.countP (fun a => VF_PREFIX.isPrefixOf a) =
      cmd.countP (fun a => VF_PREFIX.isPrefixOf a) := by
  rcases pick_video_ok fs k cmd v c2 h with hc | ⟨a0, a1, rest, hcmd, hc2, e, _, hv⟩
  · rw [hc]
  · subst hcmd
    subst hc2
    simp only [List.countP_cons]
    have : VF_PREFIX.isPrefixOf v = VF_PREFIX.isPrefixOf a1 := by
      rw [hv]
      exact isPrefixOf_append_cons VF_PREFIX '/' (by decide) a1 e.name
    rw [this]

/-! ## Branch computations of `main` -/

/-- The join branch of `main`: selection succeeded and the 100 ms probe
found a listener. -/
theorem main_run_join (t : Int) (cmd : List Str) (env : Env) (video : Str)
    (cmd2 : List Str) (pa : Nat)
    (hp : pick_video env.fs env.pick cmd = .ok (video, cmd2))
    (hw : wait_socket env.probe PROBE_TIMEOUT env.probeFuel = some (true, pa)) :
    main_run t cmd env = some ⟨0, join_msgs video cmd2, none, false, false,
      pa, 0, (List.range (join_msgs video cmd2).length).map env.sendFail⟩ := by
  have hne := pick_video_ok_not_empty env.fs env.pick cmd video cmd2 hp
  simp [main_run, main_steps, hne, hp, hw]

/-- The become branch of `main` when the readiness wait fails: the player
is spawned, then terminated, and the launch exits 1. -/
theorem main_run_ready_fail (t : Int) (cmd : List Str) (env : Env)
    (video : Str) (cmd2 : List Str) (pa ra : Nat)
    (hp : pick_video env.fs env.pick cmd = .ok (video, cmd2))
    (hw : wait_socket env.probe PROBE_TIMEOUT env.probeFuel = some (false, pa))
    (hr : wait_socket env.ready t env.readyFuel = some (false, ra)) :
    main_run t cmd env = some ⟨1, [], some (build_cmd cmd2 env.wid IPC_PATH),
      true, false, pa, ra, []⟩ := by
  have hne := pick_video_ok_not_empty env.fs env.pick cmd video cmd2 hp
  simp [main_run, main_steps, hne, hp, hw, hr]

/-- The become branch of `main` when the readiness wait succeeds: the
volume loop runs and the `finally` teardown always fires. -/
theorem main_run_loop (t : Int) (cmd : List Str) (env : Env)
    (video : Str) (cmd2 : List Str) (pa ra : Nat)
    (hp : pick_video env.fs env.pick cmd = .ok (video, cmd2))
    (hw : wait_socket env.probe PROBE_TIMEOUT env.probeFuel = some (false, pa))
    (hr : wait_socket env.ready t env.readyFuel = some (true, ra)) :
    main_run t cmd env = some ⟨loop_exit_code env.loopExit,
      (vol_loop 0 (processed_events env.events env.loopExit)).2,
      some (build_cmd cmd2 env.wid IPC_PATH), true, true, pa, ra,
      (List.range (vol_loop 0 (processed_events env.events env.loopExit)).2.length).map
        env.sendFail⟩ := by
  have hne := pick_video_ok_not_empty env.fs env.pick cmd video cmd2 hp
  simp [main_run, main_steps, hne, hp, hw, hr]

/-- The selector-failure branch of `main`. -/
theorem main_run_sel_fail (t : Int) (cmd : List Str) (env : Env) (e : SelErr)
    (hne : cmd.isEmpty = false)
    (hp : pick_video env.fs env.pick cmd = .error e) :
    main_run t cmd env = some ⟨1, [], none, false, false, 0, 0, []⟩ := by
  simp [main_run, main_steps, hne, hp]

/-- The empty-invocation branch of `main`: `p.error` exits with argparse
status 2 before anything else happens. -/
theorem main_run_empty (t : Int) (env : Env) :
    main_run t [] env = some ⟨2, [], none, false, false, 0, 0, []⟩ := by
  simp [main_run, main_steps]

/-! ## Lemmas about the command builder -/

/-- Folding the defaults only ever appends, so existing arguments
survive. -/
theorem foldl_add_default_mem_mono (ds : List (Str × Option Str)) :
    ∀ (b : List Str) (x : Str), x ∈ b → x ∈ ds.foldl add_default b := by
  induction ds with
  | nil => intro b x hx; exact hx
  | cons kv ds ih =>
    intro b x hx
    apply ih
    simp only [add_default]
    split
    · exact hx
    · exact List.mem_append_left _ hx

/-- Nothing is appended whose key already prefixes an existing argument:
if every table entry that could produce `x` is blocked by an argument of
`b` it prefixes, then `x` in the fold's output means `x` was in `b`. -/
theorem foldl_add_default_mem_inv (ds : List (Str × Option Str)) :
    ∀ (b : List Str) (x : Str),
      (∀ kv ∈ ds, mkArg kv.1 kv.2 = x → ∃ a ∈ b, kv.1.isPrefixOf a = true) →
      x ∈ ds.foldl add_default b → x ∈ b := by
  induction ds with
  | nil => intro b x _ hx; exact hx
  | cons kv ds ih =>
    intro b x hblock hx
    simp only [List.foldl_cons] at hx
    by_cases hg : b.any (fun a => kv.1.isPrefixOf a) = true
    · have hb : add_default b kv = b := by simp [add_default, hg]
      rw [hb] at hx
      refine ih b x ?_ hx
      intro kv2 h2 he
      exact hblock kv2 (List.mem_cons_of_mem kv h2) he
    · have hb : add_default b kv = b ++ [mkArg kv.1 kv.2] := by
        simp only [add_default]
        rw [if_neg hg]
      rw [hb] at hx
      have hxb : x ∈ b ++ [mkArg kv.1 kv.2] := by
        refine ih _ x ?_ hx
        intro kv2 h2 he
        obtain ⟨a, ha, hpre⟩ := hblock kv2 (List.mem_cons_of_mem kv h2) he
        exact ⟨a, List.mem_append_left _ ha, hpre⟩
      rcases List.mem_append.mp hxb with hxb | hxs
      · exact hxb
      · exfalso
        simp only [List.mem_singleton] at hxs
        obtain ⟨a, ha, hpre⟩ :=
          hblock kv (List.mem_cons_self kv ds) hxs.symm
        exact hg (List.any_eq_true.mpr ⟨a, ha, hpre⟩)

/-- Folding the defaults preserves distinctness of flag keys: a default is
only appended when its key prefixes no existing argument, and every
argument extends its own flag key. -/
theorem foldl_add_default_nodup (ds : List (Str × Option Str))
    (hks : ∀ kv ∈ ds, ('=' : Char) ∉ kv.1) :
    ∀ (b : List Str), ((b.map flagKey).Nodup) →
      (((ds.foldl add_default b).map flagKey).Nodup) := by
  induction ds with
  | nil => intro b hb; exact hb
  | cons kv ds ih =>
    intro b hb
    simp only [List.foldl_cons]
    have hktail : ∀ kv2 ∈ ds, ('=' : Char) ∉ kv2.1 :=
      fun kv2 h2 => hks kv2 (List.mem_cons_of_mem kv h2)
    by_cases hg : b.any (fun a => kv.1.isPrefixOf a) = true
    · have hbeq : add_default b kv = b := by simp [add_default, hg]
      rw [hbeq]
      exact ih hktail b hb
    · have hbeq : add_default b kv = b ++ [mkArg kv.1 kv.2] := by
        simp only [add_default]
        rw [if_neg hg]
      rw [hbeq]
      refine ih hktail _ ?_
      rw [List.map_append]
      apply List.Nodup.append hb
      · simp
      · intro y hy hy2
        simp only [List.map_cons, List.map_nil, List.mem_singleton] at hy2
        rw [flagKey_mkArg kv.1 kv.2 (hks kv (List.mem_cons_self kv ds))] at hy2
        subst hy2
        obtain ⟨a, ha, hfa⟩ := List.mem_map.mp hy
        apply hg
        apply List.any_eq_true.mpr
        refine ⟨a, ha, ?_⟩
        rw [← hfa]
        exact flagKey_isPrefixOf a

/-! ## The volume loop invariant -/

/-- Clamped single steps keep the volume in range. -/
theorem vol_step_mem (v : Int) (e : Ev) (v2 : Int) (h0 : 0 ≤ v)
    (h1 : v ≤ 100) (h : vol_step v e = some v2) : 0 ≤ v2 ∧ v2 ≤ 100 := by
  cases e with
  | keyUp =>
    simp only [vol_step, Option.some.injEq] at h
    subst h
    constructor
    · exact le_min (by norm_num) (by omega)
    · exact min_le_left _ _
  | keyDown =>
    simp only [vol_step, Option.some.injEq] at h
    subst h
    constructor
    · exact le_max_left _ _
    · exact max_le (by norm_num) (by omega)
  | ignored => cases h

/-- The loop keeps the volume in `[0, 100]`, and every volume it sends is
in `[0, 100]`. -/
theorem vol_loop_inv (evs : List Ev) : ∀ v : Int, 0 ≤ v → v ≤ 100 →
    (0 ≤ (vol_loop v evs).1 ∧ (vol_loop v evs).1 ≤ 100) ∧
    ∀ m ∈ (vol_loop v evs).2, ∀ x, m = .set_property_volume x →
      0 ≤ x ∧ x ≤ 100 := by
  induction evs with
  | nil =>
    intro v h0 h1
    refine ⟨⟨h0, h1⟩, ?_⟩
    intro m hm
    simp [vol_loop] at hm
  | cons e rest ih =>
    intro v h0 h1
    match he : vol_step v e with
    | none =>
      have : vol_loop v (e :: rest) = vol_loop v rest := by
        simp [vol_loop, he]
      rw [this]
      exact ih v h0 h1
    | some v2 =>
      obtain ⟨h20, h21⟩ := vol_step_mem v e v2 h0 h1 he
      have hrec := ih v2 h20 h21
      have hl : vol_loop v (e :: rest) =
          ((vol_loop v2 rest).1,
           .set_property_volume v2 :: (vol_loop v2 rest).2) := by
        simp [vol_loop, he]
      rw [hl]
      refine ⟨hrec.1, ?_⟩
      intro m hm x hx
      simp only [List.mem_cons] at hm
      rcases hm with hm | hm
      · subst hm
        injection hx with hx
        subst hx
        exact ⟨h20, h21⟩
      · exact hrec.2 m hm x hx

/-- Definitional unfolding of `build_cmd`. -/
theorem build_cmd_eq (args : List Str) (wid ipc : Str) :
    build_cmd args wid ipc =
      (mpv_defaults wid ipc).foldl add_default (args.map (replaceWID wid)) :=
  rfl

/-! ## The claims -/

/-- C3: starting from volume 0, the volume stays an integer in `[0, 100]`
for every event sequence (including every level the loop reports), a
recognized increase sets it to `min 100 (v + 5)`, a recognized decrease to
`max 0 (v - 5)`, every other event leaves it unchanged, and three
increases from 0 give 15. -/
theorem C3_volume_bounds :
    (∀ evs : List Ev,
      (0 ≤ (vol_loop 0 evs).1 ∧ (vol_loop 0 evs).1 ≤ 100) ∧
      ∀ m ∈ (vol_loop 0 evs).2, ∀ x, m = .set_property_volume x →
        0 ≤ x ∧ x ≤ 100) ∧
    (vol_loop 0 [.keyUp, .keyUp, .keyUp]).1 = 15 ∧
    (∀ v : Int, vol_step v .keyUp = some (min 100 (v + 5)) ∧
      vol_step v .keyDown = some (max 0 (v - 5)) ∧
      vol_step v .ignored = none) := by
  refine ⟨fun evs => vol_loop_inv evs 0 (by norm_num) (by norm_num),
    by decide, fun v => ⟨rfl, rfl, rfl⟩⟩

/-- Witness for C3 at a concrete event sequence. -/
theorem C3_volume_bounds_witness :
    (0 ≤ (vol_loop 0 [Ev.keyUp, Ev.keyDown, Ev.ignored]).1 ∧
      (vol_loop 0 [Ev.keyUp, Ev.keyDown, Ev.ignored]).1 ≤ 100) ∧
    (vol_loop 0 [Ev.keyUp, Ev.keyUp, Ev.keyUp]).1 = 15 :=
  ⟨(C3_volume_bounds.1 [Ev.keyUp, Ev.keyDown, Ev.ignored]).1,
   C3_volume_bounds.2.1⟩

/-- C1: the scenario `player clip.mp4 --vf=hue=h=90` against a live
instance sends exactly three messages in order, but the `loadfile`
message carries `player` — the first argument not starting with `-`, which
is the program name — instead of `clip.mp4`.  This evaluates the embedded
launch at that exact input. -/
theorem C1_join_sends_program_name :
    main_run 5000 ["player".toList, "clip.mp4".toList, "--vf=hue=h=90".toList]
      ⟨⟨fun _ => false, fun _ => []⟩, 0, ⟨0, fun _ => 0, fun _ => true⟩, 1,
       ⟨0, fun _ => 0, fun _ => true⟩, 1, [], [], .playerExited,
       fun _ => false⟩ =
    some ⟨0, [.vf_clear, .loadfile "player".toList,
              .vf_set "hue=h=90".toList],
          none, false, false, 1, 0, [false, false, false]⟩ ∧
    (IpcCmd.loadfile "player".toList ≠ IpcCmd.loadfile "clip.mp4".toList) := by
  exact ⟨by decide, by decide⟩

/-- C4 counterexample: two identical user-supplied `--hwdec=no` arguments
survive into the output, so the output has two arguments with flag key
`--hwdec`. -/
theorem C4_duplicate_keys_cex :
    ¬ ((build_cmd ["mpv".toList, "--hwdec=no".toList, "--hwdec=no".toList]
        "0x42".toList IPC_PATH).map flagKey).Nodup := by decide

/-- C4 amended: if the placeholder-substituted user arguments have
pairwise distinct flag keys, so does the builder's output (the defaults
are appended only when their key prefixes no existing argument); and a
user-supplied `--hwdec=no` always survives untouched, with `--hwdec=auto`
present in the output only if the user supplied it. -/
theorem C4_build_cmd_keys (args : List Str) (wid ipc : Str) :
    (((args.map (replaceWID wid)).map flagKey).Nodup →
      ((build_cmd args wid ipc).map flagKey).Nodup) ∧
    ("--hwdec=no".toList ∈ args →
      "--hwdec=no".toList ∈ build_cmd args wid ipc ∧
      ("--hwdec=auto".toList ∈ build_cmd args wid ipc ↔
        "--hwdec=auto".toList ∈ args.map (replaceWID wid))) := by
  have hks : ∀ kv ∈ mpv_defaults wid ipc, ('=' : Char) ∉ kv.1 := by
    intro kv hkv
    simp only [mpv_defaults, List.mem_cons, List.not_mem_nil, or_false] at hkv
    rcases hkv with h | h | h | h | h | h | h | h | h <;> subst h <;>
      dsimp only <;> decide
  constructor
  · intro hnd
    rw [build_cmd_eq]
    exact foldl_add_default_nodup _ hks _ hnd
  · intro hin
    have hfix : replaceWID wid "--hwdec=no".toList = "--hwdec=no".toList := rfl
    have hbase : "--hwdec=no".toList ∈ args.map (replaceWID wid) := by
      rw [← hfix]
      exact List.mem_map_of_mem _ hin
    rw [build_cmd_eq]
    constructor
    · exact foldl_add_default_mem_mono _ _ _ hbase
    · constructor
      · intro hauto
        refine foldl_add_default_mem_inv (mpv_defaults wid ipc) _ _ ?_ hauto
        intro kv hkv he
        simp only [mpv_defaults, List.mem_cons, List.not_mem_nil, or_false] at hkv
        rcases hkv with h | h | h | h | h | h | h | h | h <;> subst h <;>
          dsimp only at he ⊢ <;>
          first
          | (exact ⟨"--hwdec=no".toList, hbase, by decide⟩)
          | (exfalso
             have hfk := congrArg flagKey he
             rw [flagKey_mkArg _ _ (by decide)] at hfk
             exact absurd hfk (by decide))
      · intro hauto
        exact foldl_add_default_mem_mono _ _ _ hauto

/-- Witness for C4 at a concrete argument list: the hypotheses of both
conjuncts hold and the conclusions evaluate. -/
theorem C4_build_cmd_keys_witness :
    ((["mpv".toList, "--hwdec=no".toList].map
        (replaceWID "0x1".toList)).map flagKey).Nodup ∧
    ((build_cmd ["mpv".toList, "--hwdec=no".toList] "0x1".toList
        IPC_PATH).map flagKey).Nodup ∧
    "--hwdec=no".toList ∈
      build_cmd ["mpv".toList, "--hwdec=no".toList] "0x1".toList IPC_PATH ∧
    "--hwdec=auto".toList ∉
      build_cmd ["mpv".toList, "--hwdec=no".toList] "0x1".toList IPC_PATH := by
  refine ⟨by decide,
    (C4_build_cmd_keys ["mpv".toList, "--hwdec=no".toList] "0x1".toList
      IPC_PATH).1 (by decide),
    ((C4_build_cmd_keys ["mpv".toList, "--hwdec=no".toList] "0x1".toList
      IPC_PATH).2 (by decide)).1,
    fun hmem => absurd
      ((((C4_build_cmd_keys ["mpv".toList, "--hwdec=no".toList] "0x1".toList
        IPC_PATH).2 (by decide)).2.mp) hmem) (by decide)⟩

/-- Every message produced by the filter loop is a `vf set`. -/
theorem join_sets_all_vf (cmd2 : List Str) :
    ∀ m ∈ join_sets cmd2, is_vf_set m = true := by
  intro m hm
  simp only [join_sets, List.mem_map] at hm
  obtain ⟨a, _, hma⟩ := hm
  rw [← hma]
  rfl

/-- One `vf set` is produced per `--vf=` argument. -/
theorem join_sets_length (cmd2 : List Str) :
    (join_sets cmd2).length =
      cmd2.countP (fun a => VF_PREFIX.isPrefixOf a) := by
  simp [join_sets, List.countP_eq_length_filter]

/-- C2: on every join-path launch, `vf clear` is the first message sent
and comes strictly before every `vf set`, exactly one `loadfile` is sent,
and one `vf set` is sent per `--vf=` argument of the raw argument list
(selection preserves that count even when it replaces a directory
argument). -/
theorem C2_join_protocol (t : Int) (cmd : List Str) (env : Env)
    (video : Str) (cmd2 : List Str) (pa : Nat) (o : Outcome)
    (hp : pick_video env.fs env.pick cmd = .ok (video, cmd2))
    (hw : wait_socket env.probe PROBE_TIMEOUT env.probeFuel = some (true, pa))
    (hm : main_run t cmd env = some o) :
    o.sent = IpcCmd.vf_clear :: IpcCmd.loadfile video :: join_sets cmd2 ∧
    o.sent.head? = some IpcCmd.vf_clear ∧
    o.sent.countP (fun m => is_loadfile m) = 1 ∧
    o.sent.countP (fun m => is_vf_set m) =
      cmd.countP (fun a => VF_PREFIX.isPrefixOf a) ∧
    (∀ i (hi : i < o.sent.length),
      is_vf_set (o.sent.get ⟨i, hi⟩) = true → 0 < i) := by
  rw [main_run_join t cmd env video cmd2 pa hp hw] at hm
  have ho : o = ⟨0, join_msgs video cmd2, none, false, false, pa, 0,
      (List.range (join_msgs video cmd2).length).map env.sendFail⟩ := by
    injection hm with hm
    exact hm.symm
  subst ho
  refine ⟨rfl, rfl, ?_, ?_, ?_⟩
  · show ((IpcCmd.vf_clear :: IpcCmd.loadfile video :: join_sets cmd2).countP
      (fun m => is_loadfile m)) = 1
    rw [List.countP_cons, List.countP_cons]
    have hz : (join_sets cmd2).countP (fun m => is_loadfile m) = 0 := by
      apply List.countP_eq_zero.mpr
      intro m hm2
      have := join_sets_all_vf cmd2 m hm2
      cases m <;> simp_all [is_vf_set, is_loadfile]
    rw [hz]
    simp [is_loadfile]
  · show ((IpcCmd.vf_clear :: IpcCmd.loadfile video :: join_sets cmd2).countP
      (fun m => is_vf_set m)) = cmd.countP (fun a => VF_PREFIX.isPrefixOf a)
    rw [List.countP_cons, List.countP_cons]
    have hall : (join_sets cmd2).countP (fun m => is_vf_set m) =
        (join_sets cmd2).length :=
      List.countP_eq_length.mpr (join_sets_all_vf cmd2)
    rw [hall, join_sets_length cmd2, pick_video_countP_vf env.fs env.pick cmd
      video cmd2 hp]
    simp [is_vf_set]
  · intro i hi hset
    match i with
    | 0 => simp [join_msgs, is_vf_set] at hset
    | j + 1 => exact Nat.succ_pos j

/-- Witness for C2: a live instance, launch `mpv vid.mkv --vf=gray`. -/
theorem C2_join_protocol_witness :
    pick_video (Fs.mk (fun _ => false) (fun _ => [])) 0
      ["mpv".toList, "vid.mkv".toList, "--vf=gray".toList] =
      .ok ("mpv".toList,
        ["mpv".toList, "vid.mkv".toList, "--vf=gray".toList]) ∧
    (Outcome.mk 0 [IpcCmd.vf_clear, IpcCmd.loadfile "mpv".toList,
        IpcCmd.vf_set "gray".toList] none false false 1 0
        [false, false, false]).sent.countP (fun m => is_loadfile m) = 1 ∧
    (Outcome.mk 0 [IpcCmd.vf_clear, IpcCmd.loadfile "mpv".toList,
        IpcCmd.vf_set "gray".toList] none false false 1 0
        [false, false, false]).sent.head? = some IpcCmd.vf_clear := by
  have h := C2_join_protocol 5000
    ["mpv".toList, "vid.mkv".toList, "--vf=gray".toList]
    ⟨⟨fun _ => false, fun _ => []⟩, 0, ⟨0, fun _ => 0, fun _ => true⟩, 1,
     ⟨0, fun _ => 0, fun _ => true⟩, 1, [], [], .playerExited,
     fun _ => false⟩
    "mpv".toList ["mpv".toList, "vid.mkv".toList, "--vf=gray".toList] 1
    (Outcome.mk 0 [IpcCmd.vf_clear, IpcCmd.loadfile "mpv".toList,
      IpcCmd.vf_set "gray".toList] none false false 1 0
      [false, false, false])
    (by decide) (by decide) (by decide)
  exact ⟨by decide, h.2.2.1, h.2.1⟩

/-- C5: a directory whose entries all have extensions outside the
allow-list makes the selector fail with `NoMediaFound`, and the launch
exits 1 with nothing sent, nothing spawned and no connection attempt. -/
theorem C5_no_media_found (t : Int) (a0 d : Str) (rest : List Str) (env : Env)
    (hdir : env.fs.is_dir d = true)
    (hext : ∀ e ∈ env.fs.iterdir d,
      (pySuffix e.name).map Char.toLower ∉ VIDEO_EXTENSIONS) :
    pick_video env.fs env.pick (a0 :: d :: rest) = .error .NoMediaFound ∧
    main_run t (a0 :: d :: rest) env =
      some ⟨1, [], none, false, false, 0, 0, []⟩ := by
  have hmv : matching_vids env.fs d = [] := by
    apply List.filterMap_eq_nil_iff.mpr
    intro e he
    rw [if_neg]
    intro hcontra
    exact hext e he hcontra.2
  have hpick : pick_video env.fs env.pick (a0 :: d :: rest) =
      .error .NoMediaFound := by
    simp [pick_video, hdir, hmv, List.isEmpty]
  exact ⟨hpick, main_run_sel_fail t _ env _ rfl hpick⟩

/-- Witness for C5: a directory holding only `notes.txt` and a
subdirectory. -/
theorem C5_no_media_found_witness :
    ((Fs.mk (fun _ => true)
        (fun _ => [⟨"notes.txt".toList, true⟩, ⟨"sub".toList, false⟩])).is_dir
      "vids".toList = true) ∧
    main_run 5000 ["mpv".toList, "vids".toList]
      ⟨⟨fun _ => true,
        fun _ => [⟨"notes.txt".toList, true⟩, ⟨"sub".toList, false⟩]⟩, 0,
       ⟨0, fun _ => 0, fun _ => true⟩, 1, ⟨0, fun _ => 0, fun _ => true⟩, 1,
       [], [], .playerExited, fun _ => false⟩ =
      some ⟨1, [], none, false, false, 0, 0, []⟩ :=
  ⟨rfl,
   (C5_no_media_found 5000 "mpv".toList "vids".toList []
     ⟨⟨fun _ => true,
       fun _ => [⟨"notes.txt".toList, true⟩, ⟨"sub".toList, false⟩]⟩, 0,
      ⟨0, fun _ => 0, fun _ => true⟩, 1, ⟨0, fun _ => 0, fun _ => true⟩, 1,
      [], [], .playerExited, fun _ => false⟩
     rfl (by decide)).2⟩

/-- C6: on the become path, a failed readiness wait terminates the
just-spawned player and exits the launch with code 1. -/
theorem C6_readiness_timeout (t : Int) (cmd : List Str) (env : Env)
    (video : Str) (cmd2 : List Str) (pa ra : Nat)
    (hp : pick_video env.fs env.pick cmd = .ok (video, cmd2))
    (hw : wait_socket env.probe PROBE_TIMEOUT env.probeFuel = some (false, pa))
    (hr : wait_socket env.ready t env.readyFuel = some (false, ra)) :
    main_run t cmd env = some ⟨1, [], some (build_cmd cmd2 env.wid IPC_PATH),
      true, false, pa, ra, []⟩ :=
  main_run_ready_fail t cmd env video cmd2 pa ra hp hw hr

/-- Witness for C6: a 200 ms readiness wait against a player that never
opens the channel. -/
theorem C6_readiness_timeout_witness :
    wait_socket ⟨0, fun _ => 1000, fun _ => false⟩ 200 1 = some (false, 0) ∧
    main_run 200 ["mpv".toList, "v.mp4".toList]
      ⟨⟨fun _ => false, fun _ => []⟩, 0, ⟨0, fun _ => 1000, fun _ => false⟩,
       1, ⟨0, fun _ => 1000, fun _ => false⟩, 1, "0x7".toList, [],
       .playerExited, fun _ => false⟩ =
      some ⟨1, [], some (build_cmd ["mpv".toList, "v.mp4".toList]
        "0x7".toList IPC_PATH), true, false, 0, 0, []⟩ :=
  ⟨by decide,
   C6_readiness_timeout 200 ["mpv".toList, "v.mp4".toList]
     ⟨⟨fun _ => false, fun _ => []⟩, 0, ⟨0, fun _ => 1000, fun _ => false⟩,
      1, ⟨0, fun _ => 1000, fun _ => false⟩, 1, "0x7".toList, [],
      .playerExited, fun _ => false⟩
     "mpv".toList ["mpv".toList, "v.mp4".toList] 0 0
     (by decide) (by decide) (by decide)⟩

/-- C7 counterexample: with no player invocation at all, the launch exits
with argparse's usage-error status 2, not 1. -/
theorem C7_missing_invocation_cex :
    (main_run 5000 []
      ⟨⟨fun _ => false, fun _ => []⟩, 0, ⟨0, fun _ => 0, fun _ => true⟩, 1,
       ⟨0, fun _ => 0, fun _ => true⟩, 1, [], [], .playerExited,
       fun _ => false⟩).map Outcome.exitCode = some 2 ∧
    ¬ ((main_run 5000 []
      ⟨⟨fun _ => false, fun _ => []⟩, 0, ⟨0, fun _ => 0, fun _ => true⟩, 1,
       ⟨0, fun _ => 0, fun _ => true⟩, 1, [], [], .playerExited,
       fun _ => false⟩).map Outcome.exitCode = some 1) := by
  exact ⟨by decide, by decide⟩

/-- C7 amended: exit code 0 on success of either branch, 1 on selector
failure and on readiness timeout, and 2 (argparse usage error) on a
missing player invocation. -/
theorem C7_exit_codes (t : Int) (cmd : List Str) (env : Env) :
    (cmd = [] → (main_run t cmd env).map Outcome.exitCode = some 2) ∧
    (∀ e, cmd ≠ [] → pick_video env.fs env.pick cmd = .error e →
      (main_run t cmd env).map Outcome.exitCode = some 1) ∧
    (∀ video cmd2 pa ra,
      pick_video env.fs env.pick cmd = .ok (video, cmd2) →
      wait_socket env.probe PROBE_TIMEOUT env.probeFuel = some (false, pa) →
      wait_socket env.ready t env.readyFuel = some (false, ra) →
      (main_run t cmd env).map Outcome.exitCode = some 1) ∧
    (∀ video cmd2 pa,
      pick_video env.fs env.pick cmd = .ok (video, cmd2) →
      wait_socket env.probe PROBE_TIMEOUT env.probeFuel = some (true, pa) →
      (main_run t cmd env).map Outcome.exitCode = some 0) ∧
    (∀ video cmd2 pa ra,
      pick_video env.fs env.pick cmd = .ok (video, cmd2) →
      wait_socket env.probe PROBE_TIMEOUT env.probeFuel = some (false, pa) →
      wait_socket env.ready t env.readyFuel = some (true, ra) →
      (∀ n, env.loopExit ≠ LoopExit.excAt n) →
      (main_run t cmd env).map Outcome.exitCode = some 0) := by
  refine ⟨?_, ?_, ?_, ?_, ?_⟩
  · intro hc
    subst hc
    rw [main_run_empty t env]
    rfl
  · intro e hc hp
    have hne : cmd.isEmpty = false := by
      cases cmd with
      | nil => exact absurd rfl hc
      | cons a l => rfl
    rw [main_run_sel_fail t cmd env e hne hp]
    rfl
  · intro video cmd2 pa ra hp hw hr
    rw [main_run_ready_fail t cmd env video cmd2 pa ra hp hw hr]
    rfl
  · intro video cmd2 pa hp hw
    rw [main_run_join t cmd env video cmd2 pa hp hw]
    rfl
  · intro video cmd2 pa ra hp hw hr hexc
    rw [main_run_loop t cmd env video cmd2 pa ra hp hw hr]
    have : loop_exit_code env.loopExit = 0 := by
      cases hle : env.loopExit with
      | playerExited => rfl
      | signalExit n => rfl
      | excAt n => exact absurd hle (hexc n)
    simp [this]

/-- Witness for C7 covering the missing-invocation, selector-failure and
join-success cases. -/
theorem C7_exit_codes_witness :
    (main_run 5000 []
      ⟨⟨fun _ => false, fun _ => []⟩, 0, ⟨0, fun _ => 0, fun _ => true⟩, 1,
       ⟨0, fun _ => 0, fun _ => true⟩, 1, [], [], .playerExited,
       fun _ => false⟩).map Outcome.exitCode = some 2 ∧
    (main_run 5000 ["-x".toList]
      ⟨⟨fun _ => false, fun _ => []⟩, 0, ⟨0, fun _ => 0, fun _ => true⟩, 1,
       ⟨0, fun _ => 0, fun _ => true⟩, 1, [], [], .playerExited,
       fun _ => false⟩).map Outcome.exitCode = some 1 ∧
    (main_run 5000 ["mpv".toList, "v.mp4".toList]
      ⟨⟨fun _ => false, fun _ => []⟩, 0, ⟨0, fun _ => 0, fun _ => true⟩, 1,
       ⟨0, fun _ => 0, fun _ => true⟩, 1, [], [], .playerExited,
       fun _ => false⟩).map Outcome.exitCode = some 0 := by
  refine ⟨(C7_exit_codes 5000 []
      ⟨⟨fun _ => false, fun _ => []⟩, 0, ⟨0, fun _ => 0, fun _ => true⟩, 1,
       ⟨0, fun _ => 0, fun _ => true⟩, 1, [], [], .playerExited,
       fun _ => false⟩).1 rfl,
    (C7_exit_codes 5000 ["-x".toList]
      ⟨⟨fun _ => false, fun _ => []⟩, 0, ⟨0, fun _ => 0, fun _ => true⟩, 1,
       ⟨0, fun _ => 0, fun _ => true⟩, 1, [], [], .playerExited,
       fun _ => false⟩).2.1 .NoMediaSpecified (by decide) (by decide),
    (C7_exit_codes 5000 ["mpv".toList, "v.mp4".toList]
      ⟨⟨fun _ => false, fun _ => []⟩, 0, ⟨0, fun _ => 0, fun _ => true⟩, 1,
       ⟨0, fun _ => 0, fun _ => true⟩, 1, [], [], .playerExited,
       fun _ => false⟩).2.2.2.1 "mpv".toList
      ["mpv".toList, "v.mp4".toList] 1 (by decide) (by decide)⟩

/-- C8: `send_ipc` swallows every exception its body can raise (the
socket operations raise only `OSError` subclasses; `json.dumps` of the
literal command dictionaries can at worst raise the caught `TypeError`),
and the drop pattern of the best-effort sends changes nothing else about
a launch — in particular not its exit code. -/
theorem C8_best_effort :
    send_ipc none = .ok () ∧
    send_ipc (some .osError) = .ok () ∧
    send_ipc (some .typeError) = .ok () ∧
    (∀ (t : Int) (cmd : List Str) (env : Env) (f g : Nat → Bool),
      (main_run t cmd { env with sendFail := f }).map strip_dropped =
        (main_run t cmd { env with sendFail := g }).map strip_dropped) := by
  refine ⟨rfl, rfl, rfl, ?_⟩
  intro t cmd env f g
  have hsteps : ∀ h : Nat → Bool,
      main_steps t cmd { env with sendFail := h } = main_steps t cmd env := by
    intro h
    cases env
    rfl
  rw [main_run, main_run, hsteps f, hsteps g]
  cases hM : main_steps t cmd env with
  | none => rfl
  | some o =>
    cases o
    rfl

/-- C9: whenever the become path reaches the volume loop, teardown runs on
every exit path — player exit, signal, or an exception inside the loop
(`env.loopExit` ranges over all three): the player is terminated and the
display connection is closed. -/
theorem C9_loop_teardown (t : Int) (cmd : List Str) (env : Env)
    (video : Str) (cmd2 : List Str) (pa ra : Nat)
    (hp : pick_video env.fs env.pick cmd = .ok (video, cmd2))
    (hw : wait_socket env.probe PROBE_TIMEOUT env.probeFuel = some (false, pa))
    (hr : wait_socket env.ready t env.readyFuel = some (true, ra)) :
    ∃ o, main_run t cmd env = some o ∧ o.terminated = true ∧
      o.displayClosed = true :=
  ⟨_, main_run_loop t cmd env video cmd2 pa ra hp hw hr, rfl, rfl⟩

/-- Witness for C9 on the exception exit path. -/
theorem C9_loop_teardown_witness :
    (main_run 5000 ["mpv".toList, "v.mp4".toList]
      ⟨⟨fun _ => false, fun _ => []⟩, 0, ⟨0, fun _ => 1000, fun _ => false⟩,
       1, ⟨0, fun _ => 0, fun _ => true⟩, 1, "0x7".toList, [Ev.keyUp],
       .excAt 1, fun _ => false⟩).map Outcome.terminated = some true ∧
    (main_run 5000 ["mpv".toList, "v.mp4".toList]
      ⟨⟨fun _ => false, fun _ => []⟩, 0, ⟨0, fun _ => 1000, fun _ => false⟩,
       1, ⟨0, fun _ => 0, fun _ => true⟩, 1, "0x7".toList, [Ev.keyUp],
       .excAt 1, fun _ => false⟩).map Outcome.displayClosed = some true := by
  obtain ⟨o, hm, h1, h2⟩ := C9_loop_teardown 5000
    ["mpv".toList, "v.mp4".toList]
    ⟨⟨fun _ => false, fun _ => []⟩, 0, ⟨0, fun _ => 1000, fun _ => false⟩,
     1, ⟨0, fun _ => 0, fun _ => true⟩, 1, "0x7".toList, [Ev.keyUp],
     .excAt 1, fun _ => false⟩
    "mpv".toList ["mpv".toList, "v.mp4".toList] 0 1
    (by decide) (by decide) (by decide)
  rw [hm]
  simp [h1, h2]

/-- C10: a non-positive readiness timeout makes `wait_socket` return
`False` at once, with zero connection attempts, for every clock whose
first reading is at or after the deadline reading and every connection
oracle — even one that always accepts; consequently a become-path launch
with such a timeout terminates its player and exits 1 without ever
probing the control address during the readiness wait. -/
theorem C10_nonpositive_timeout (w : WaitEnv) (timeout : Int) (fuel : Nat)
    (h1 : timeout ≤ 0) (h2 : w.t0 ≤ w.clock 0) (h3 : 1 ≤ fuel) :
    wait_socket w timeout fuel = some (false, 0) ∧
    ∀ (cmd : List Str) (env : Env) (video : Str) (cmd2 : List Str) (pa : Nat),
      env.ready = w → env.readyFuel = fuel →
      pick_video env.fs env.pick cmd = .ok (video, cmd2) →
      wait_socket env.probe PROBE_TIMEOUT env.probeFuel = some (false, pa) →
      main_run timeout cmd env = some ⟨1, [],
        some (build_cmd cmd2 env.wid IPC_PATH), true, false, pa, 0, []⟩ := by
  have hws : wait_socket w timeout fuel = some (false, 0) := by
    obtain ⟨m, rfl⟩ : ∃ m, fuel = m + 1 := ⟨fuel - 1, by omega⟩
    simp only [wait_socket, wait_socket_go]
    rw [if_neg (by omega)]
  refine ⟨hws, ?_⟩
  intro cmd env video cmd2 pa hrw hrf hp hw
  have hr : wait_socket env.ready timeout env.readyFuel = some (false, 0) := by
    rw [hrw, hrf]
    exact hws
  exact main_run_ready_fail timeout cmd env video cmd2 pa 0 hp hw hr

/-- Witness for C10: timeout 0 against a listener that is accepting
connections from the very first attempt. -/
theorem C10_nonpositive_timeout_witness :
    wait_socket ⟨0, fun _ => 0, fun _ => true⟩ 0 1 = some (false, 0) ∧
    main_run 0 ["mpv".toList, "v.mp4".toList]
      ⟨⟨fun _ => false, fun _ => []⟩, 0, ⟨0, fun _ => 1000, fun _ => false⟩,
       1, ⟨0, fun _ => 0, fun _ => true⟩, 1, "0x7".toList, [],
       .playerExited, fun _ => false⟩ =
      some ⟨1, [], some (build_cmd ["mpv".toList, "v.mp4".toList]
        "0x7".toList IPC_PATH), true, false, 0, 0, []⟩ := by
  have h := C10_nonpositive_timeout ⟨0, fun _ => 0, fun _ => true⟩ 0 1
    (by decide) (by decide) (by decide)
  exact ⟨h.1, h.2 ["mpv".toList, "v.mp4".toList]
    ⟨⟨fun _ => false, fun _ => []⟩, 0, ⟨0, fun _ => 1000, fun _ => false⟩,
     1, ⟨0, fun _ => 0, fun _ => true⟩, 1, "0x7".toList, [],
     .playerExited, fun _ => false⟩
    "mpv".toList ["mpv".toList, "v.mp4".toList] 0 rfl rfl
    (by decide) (by decide)⟩
